import Mathlib

/-!
Verification of the CopilotKit streaming protocol adapter layer.

This file gives a shallow embedding, in Lean 4, of the adapter code of the
repository (message format converter, event-to-output translator, streaming
transport pump, version-compatibility check, error deduplication, and agent
resolution), and proves or refutes the stated properties of that code.

Sources embedded:
- `packages/react-core/src/lib/client-factory.ts` (message conversion)
- `packages/runtime-client-gql/src/client/CopilotRuntimeDirectClient.ts`
  (event translator, response stream pump, `removeGraphQLTypename`)
- `packages/runtime-client-gql/src/client/DirectAgUiRuntimeClient.ts`
  (`createFetchFn` version check, `asStream` abort suppression)
- `packages/react-core/src/hooks/use-copilot-agui-client.ts`
  (error deduplication, `getClientForAgent`)
-/

namespace CopilotKitSpec

/-! ## JSON value model

JavaScript data handled by the adapter (action arguments, GraphQL payloads)
is modelled by a small JSON-like value type.  Numbers are modelled as
integers; no claim depends on floating-point behaviour. -/

inductive J where
  | null : J
  | bool (b : Bool) : J
  | num (n : Int) : J
  | str (s : String) : J
  | arr (items : List J) : J
  | obj (fields : List (String × J)) : J

/-- `typeof v === "object" && v !== null` in JavaScript: true exactly for
arrays and (non-null) objects. -/
def J.isObjLike : J → Bool
  | .arr _ => true
  | .obj _ => true
  | _ => false

/-- Escape a string the way `JSON.stringify` does for the characters relevant
here (backslash and double quote). -/
def jsonEscapeChar (c : Char) : String :=
  if c = '\\' then "\\\\"
  else if c = '"' then "\\\""
  else String.singleton c

def jsonEscape (s : String) : String :=
  String.join (s.toList.map jsonEscapeChar)

mutual

/-- Model of the JavaScript builtin `JSON.stringify` on the `J` value model. -/
def jsonStringify : J → String
  | .null => "null"
  | .bool b => if b then "true" else "false"
  | .num n => toString n
  | .str s => "\"" ++ jsonEscape s ++ "\""
  | .arr items => "[" ++ jsonStringifyItems items ++ "]"
  | .obj fields => "\x7b" ++ jsonStringifyFields fields ++ "\x7d"

def jsonStringifyItems : List J → String
  | [] => ""
  | [j] => jsonStringify j
  | j :: rest => jsonStringify j ++ "," ++ jsonStringifyItems rest

def jsonStringifyFields : List (String × J) → String
  | [] => ""
  | [(k, v)] => "\"" ++ jsonEscape k ++ "\":" ++ jsonStringify v
  | (k, v) :: rest =>
      "\"" ++ jsonEscape k ++ "\":" ++ jsonStringify v ++ "," ++ jsonStringifyFields rest

end

/-! ## Message format converter (`client-factory.ts`)

The internal message model is a discriminated union (the source dispatches on
`isTextMessage()` / `isActionExecutionMessage()` / `isResultMessage()` /
`isAgentStateMessage()` / `isImageMessage()`); here it is a sum type with one
constructor per variant, carrying the fields the converter reads. -/

/-- The GQL `Role` enum (`user` / `assistant` / `system` / `developer` /
`tool`); `tool` is the value the converter's `switch` does not enumerate. -/
inductive Role where
  | user | assistant | system | developer | tool
  deriving DecidableEq, Repr

inductive CKMessage where
  | text (id : String) (role : Role) (content : String)
  | actionExecution (id : String) (name : String) (arguments : J)
  | result (id : String) (result : String) (actionExecutionId : String)
  | agentState (id : String) (agentName : String) (state : J)
  | image (id : String) (role : Role) (format : String) (bytes : String)

structure AguiFunctionCall where
  name : String
  arguments : String
  deriving DecidableEq, Repr

structure AguiToolCall where
  id : String
  type : String
  function : AguiFunctionCall
  deriving DecidableEq, Repr

/-- The ag_ui wire message shape produced by `copilotKitToAgui`: fields not
set by a branch of the source are `none`. -/
structure AguiMessage where
  id : String
  role : String
  content : String
  toolCalls : Option (List AguiToolCall) := none
  toolCallId : Option String := none
  deriving DecidableEq, Repr

/-- `getRoleFromMessage` (client-factory.ts): for a text message, map the GQL
role enum to the ag_ui role string, defaulting to `"user"`; every non-text
message gets `"assistant"`. -/
def getRoleFromMessage : CKMessage → String
  | .text _ role _ =>
    match role with
    | .user => "user"
    | .assistant => "assistant"
    | .system => "system"
    | .developer => "developer"
    | _ => "user"
  | _ => "assistant"

/-- `copilotKitToAgui` (client-factory.ts).  The source also receives
`actions` and `coAgentStateRenders` parameters which its body never reads;
they are omitted here.  `randomUUID()` is modelled by the id supply `gen`
applied at successive indices `k`; only the action-execution branch draws a
fresh id. -/
def copilotKitToAguiAux (gen : Nat → String) : Nat → List CKMessage → List AguiMessage
  | _, [] => []
  | k, m :: rest =>
    match m with
    | .text id role content =>
        { id := id, role := getRoleFromMessage (.text id role content),
          content := content } :: copilotKitToAguiAux gen k rest
    | .actionExecution id name arguments =>
        { id := gen k, role := "assistant", content := "",
          toolCalls := some [{ id := id, type := "function",
                               function := { name := name,
                                             arguments := jsonStringify arguments } }] }
          :: copilotKitToAguiAux gen (k + 1) rest
    | .result id result actionExecutionId =>
        { id := id, role := "tool", content := result,
          toolCallId := some actionExecutionId } :: copilotKitToAguiAux gen k rest
    | .agentState id _ _ =>
        { id := id, role := "assistant", content := "" } :: copilotKitToAguiAux gen k rest
    | .image id role format bytes =>
        { id := id, role := getRoleFromMessage (.image id role format bytes),
          content := "" } :: copilotKitToAguiAux gen k rest

def copilotKitToAgui (gen : Nat → String) (messages : List CKMessage) : List AguiMessage :=
  copilotKitToAguiAux gen 0 messages

/-- The record shape `aguiToCopilotKit` actually builds: only `id`, `content`
and `role` (the source maps each wire message to
`\x7b id, content: msg.content || "", role \x7d`). -/
structure CKSimpleMessage where
  id : String
  content : String
  role : String
  deriving DecidableEq, Repr

/-- `aguiToCopilotKit` (client-factory.ts): the simplified reverse
conversion.  `msg.content || ""` keeps the content string (an absent/empty
content becomes `""`; content is a total string in this model, so the
fallback is the identity on it). -/
def aguiToCopilotKit (aguiMessages : List AguiMessage) : List CKSimpleMessage :=
  aguiMessages.map fun msg => { id := msg.id, content := msg.content, role := msg.role }

/-! ## Event-to-Output translator
(`CopilotRuntimeDirectClient.convertAGUIEventToGQL`)

The incoming ag_ui protocol events carry the fields the translator reads;
string fields the source tests for truthiness are plain strings here, with
`""` playing the role of an absent/falsy value.  `randomId()` and
`new Date().toISOString()` are modelled by the `freshId` and `now`
parameters; `this.httpAgent.url` by the `url` parameter. -/

inductive AGUIEvent where
  | textMessageStart (messageId : String)
  | textMessageContent (messageId : String) (content : String)
  | textMessageEnd (messageId : String)
  | actionExecutionStart (actionExecutionId : String) (actionName : String)
      (parentMessageId : String)
  | actionExecutionArgs (actionExecutionId : String) (args : String)
  | actionExecutionEnd (actionExecutionId : String)
  | agentStateMessage (threadId : String) (agentName : String) (state : String)
      (running : Bool) (nodeName : String) (runId : String) (active : Bool)
  | metaEvent (name : String) (value : String)
  | errorEvent (message : String)
  | unknownEvent (type : String) (id : String) (content : String)
  deriving DecidableEq, Repr

inductive StatusCode where
  | pending | success
  deriving DecidableEq, Repr

/-- The GraphQL-shaped output record built by the translator.  Each branch of
the source sets only some fields of its object literal; a field a branch does
not set is `none`. -/
structure GQLOutput where
  typename : String
  id : Option String := none
  createdAt : Option String := none
  role : Option String := none
  content : Option String := none
  status : Option StatusCode := none
  name : Option String := none
  arguments : Option (List String) := none
  parentMessageId : Option String := none
  threadId : Option String := none
  agentName : Option String := none
  state : Option String := none
  running : Option Bool := none
  nodeName : Option String := none
  runId : Option String := none
  active : Option Bool := none
  metaType : Option String := none
  metaName : Option String := none
  value : Option String := none
  deriving DecidableEq, Repr

/-- `CopilotKitLowLevelError(\x7b error, url, message \x7d)` as raised by the
`error` event branch: the wrapped `Error`'s message, the originating url, and
the outer message. -/
structure LowLevelError where
  errorMessage : String
  url : String
  message : String
  deriving DecidableEq, Repr

/-- `convertAGUIEventToGQL` (CopilotRuntimeDirectClient.ts).  The `error`
branch `throw`s; translation is therefore `Except`-valued: `Except.error` is
the thrown `CopilotKitLowLevelError` and `Except.ok none` is the `null`
fall-through (an unmatched `meta_event` name).  The `default` branch spreads
the original event over a synthesized TextMessageOutput; for the modelled
`unknownEvent` fields this overrides `id` and `content` when present. -/
def convertAGUIEventToGQL (url : String) (freshId : String) (now : String) :
    AGUIEvent → Except LowLevelError (Option GQLOutput)
  | .textMessageStart messageId =>
      .ok (some { typename := "TextMessageOutput",
                  id := some (if messageId = "" then freshId else messageId),
                  createdAt := some now,
                  role := some "assistant",
                  content := some "",
                  status := some .pending })
  | .textMessageContent messageId content =>
      .ok (some { typename := "TextMessageOutput",
                  id := some messageId,
                  content := some content,
                  role := some "assistant" })
  | .textMessageEnd messageId =>
      .ok (some { typename := "TextMessageOutput",
                  id := some messageId,
                  status := some .success })
  | .actionExecutionStart actionExecutionId actionName parentMessageId =>
      .ok (some { typename := "ActionExecutionMessageOutput",
                  id := some actionExecutionId,
                  name := some actionName,
                  arguments := some [],
                  parentMessageId := some parentMessageId,
                  status := some .pending })
  | .actionExecutionArgs actionExecutionId args =>
      .ok (some { typename := "ActionExecutionMessageOutput",
                  id := some actionExecutionId,
                  arguments := some [args] })
  | .actionExecutionEnd actionExecutionId =>
      .ok (some { typename := "ActionExecutionMessageOutput",
                  id := some actionExecutionId,
                  status := some .success })
  | .agentStateMessage threadId agentName state running nodeName runId active =>
      .ok (some { typename := "AgentStateMessageOutput",
                  id := some freshId,
                  threadId := some threadId,
                  agentName := some agentName,
                  state := some state,
                  running := some running,
                  role := some "assistant",
                  nodeName := some nodeName,
                  runId := some runId,
                  active := some active,
                  createdAt := some now,
                  status := some .success })
  | .metaEvent name value =>
      if name = "langgraph_interrupt" then
        .ok (some { typename := "LangGraphInterruptEvent",
                    metaType := some "MetaEvent",
                    metaName := some "LANG_GRAPH_INTERRUPT_EVENT",
                    value := some value })
      else
        .ok none
  | .errorEvent message =>
      .error { errorMessage := if message = "" then "AG_UI Error" else message,
               url := if url = "" then "ag_ui_agent" else url,
               message := if message = "" then "Unknown AG_UI error occurred" else message }
  | .unknownEvent _type id content =>
      .ok (some { typename := "TextMessageOutput",
                  id := some (if id = "" then freshId else id),
                  createdAt := some now,
                  content := some content,
                  role := some "assistant",
                  status := some .success })

/-- The records the translator emits for a sequence of protocol events, in
order: the `next` handler of the response stream (source lines 113-128)
enqueues `convertAGUIEventToGQL event` exactly when it is non-null (`if
(gqlEvent) controller.enqueue(gqlEvent)`); a conversion that throws emits
nothing. -/
def translatorOutputs (url : String) (freshId : String) (now : String)
    (events : List AGUIEvent) : List GQLOutput :=
  events.filterMap fun e => ((convertAGUIEventToGQL url freshId now e).toOption).join

/-! ## Streaming transport
(`CopilotRuntimeDirectClient.generateCopilotResponse`)

The method wires an rxjs subscription on the agent's event observable into a
`ReadableStream` controller, and pumps that stream into the caller's
observer.  The JavaScript execution is single-threaded and cooperative; the
abort signal is one monotone boolean read at explicit check points.  The
embedding makes each check point explicit:

* the producer (the `responseObservable.subscribe` handlers, source lines
  112-147) turns each source emission into controller operations, with the
  abort guards of the source; the abort moment is the emission index `kp`,
  and the `abort` listener added at line 106-109 closes the controller at
  that moment;
* the resulting stream contents are the enqueued records up to the first
  terminal operation;
* the consumer (the `subscribe`/`pump` loop, source lines 159-202) reads
  those contents and drives the observer callbacks, consulting the abort
  flag `abC` at the check points of the loop. -/

inductive SourceEmission where
  | next (event : AGUIEvent)
  | error (message : String)
  | complete
  deriving DecidableEq, Repr

inductive ControllerOp where
  | enqueue (record : GQLOutput)
  | close
  | error (message : String)
  deriving DecidableEq, Repr

/-- The `next`/`error`/`complete` handlers of the producer subscription while
the abort signal has not yet fired (`signal?.aborted` reads false).  A `next`
whose conversion throws runs the catch block at source lines 122-127:
`handleErrors` then `controller.error`.  rxjs delivers nothing after an
`error` or `complete` emission, so those are terminal. -/
def producerOpsLive (url : String) (freshId : String) (now : String) :
    List SourceEmission → List ControllerOp
  | [] => []
  | .next event :: rest =>
    match convertAGUIEventToGQL url freshId now event with
    | .ok (some record) => .enqueue record :: producerOpsLive url freshId now rest
    | .ok none => producerOpsLive url freshId now rest
    | .error e => .error e.message :: producerOpsLive url freshId now rest
  | .error message :: _ => [.error message]
  | .complete :: _ => [.close]

/-- The same handlers once the abort signal reads true: a `next` returns at
the `if (signal?.aborted) return` guard (line 116), an `error` closes instead
of erroring (lines 133-137), a `complete` closes. -/
def producerOpsAborted : List SourceEmission → List ControllerOp
  | [] => []
  | .next _ :: rest => producerOpsAborted rest
  | .error _ :: _ => [.close]
  | .complete :: _ => [.close]

/-- All controller operations of one run in which the abort signal fires
after the first `kp` source emissions: the emissions before `kp` run the
live handlers, the abort listener (source lines 106-109) closes the
controller, and the remaining emissions run the aborted handlers.
(`controller.close` on an already-terminated stream is a no-op for the
stream contents, which only keep operations up to the first terminal.) -/
def opsWithAbort (url : String) (freshId : String) (now : String) (kp : Nat)
    (emissions : List SourceEmission) : List ControllerOp :=
  producerOpsLive url freshId now (emissions.take kp) ++ [.close]
    ++ producerOpsAborted (emissions.drop kp)

inductive StreamEnd where
  | closed
  | errored (message : String)
  | open_
  deriving DecidableEq, Repr

/-- A `ReadableStream`'s observable contents: the chunks enqueued before the
first terminal operation, and how (or whether) the stream terminated. -/
def streamContents : List ControllerOp → List GQLOutput × StreamEnd
  | [] => ([], .open_)
  | .enqueue record :: rest =>
      let (chunks, e) := streamContents rest
      (record :: chunks, e)
  | .close :: _ => ([], .closed)
  | .error message :: _ => ([], .errored message)

/-- What one `reader.read()` of the pump can yield. -/
inductive ReadResult where
  | value (record : GQLOutput)
  | done
  | errored (message : String)
  deriving DecidableEq, Repr

/-- The sequence of read results the pump observes for given stream
contents.  An `open_` stream would leave the pump suspended on its next
read, so it contributes nothing further. -/
def toReads : List GQLOutput × StreamEnd → List ReadResult
  | (chunks, e) =>
    chunks.map ReadResult.value ++
      match e with
      | .closed => [.done]
      | .errored message => [.errored message]
      | .open_ => []

/-- A callback delivered to the caller's observer. -/
inductive CBEvent where
  | next (record : GQLOutput)
  | error (message : String)
  | complete
  deriving DecidableEq, Repr

/-- The pump loop (source lines 168-193).  Iteration `i` performs one
`reader.read()`; `ab i` is the value of `signal?.aborted` at the check point
of that iteration.  A `done` read completes; otherwise the abort check runs
before `observer.next`; a read that rejects runs the catch block, which
completes when aborted and errors otherwise. -/
def pumpLoop (ab : Nat → Bool) : Nat → List ReadResult → List CBEvent
  | _, [] => []
  | _, .done :: _ => [.complete]
  | i, .errored message :: _ => if ab i then [.complete] else [.error message]
  | i, .value record :: rest =>
      if ab i then [.complete]
      else .next record :: pumpLoop ab (i + 1) rest

/-- `subscribe` (source lines 160-201): an already-aborted signal completes
immediately (lines 161-164); otherwise the pump runs. -/
def subscribeTrace (ab : Nat → Bool) (reads : List ReadResult) : List CBEvent :=
  if ab 0 then [.complete] else pumpLoop ab 0 reads

/-- A source emission the stream can absorb without terminating: a protocol
event whose conversion does not throw.  The abort-before-completion scenario
requires every emission before the abort moment to be of this form. -/
def isCleanNext (url : String) (freshId : String) (now : String) :
    SourceEmission → Bool
  | .next event =>
    match convertAGUIEventToGQL url freshId now event with
    | .ok _ => true
    | .error _ => false
  | _ => false

/-- The record, if any, that a source emission contributes to the response
stream. -/
def emittedRecord (url : String) (freshId : String) (now : String) :
    SourceEmission → Option GQLOutput
  | .next event => ((convertAGUIEventToGQL url freshId now event).toOption).join
  | _ => none

/-! ## `asStream` abort-pattern suppression
(`DirectAgUiRuntimeClient.asStream`, source lines 236-287)

Each result pushed by the subscribed source is processed synchronously; the
processing of a single result is a pure function from the result to the list
of actions taken. -/

/-- `error.message.includes(pattern)` for a non-empty pattern. -/
def includesSubstr (hay : String) (pattern : String) : Bool :=
  (hay.splitOn pattern).length ≥ 2

/-- The two known abort-induced error message patterns matched by the source
(`DirectAgUiRuntimeClient.ts` lines 243-246 and 125-128). -/
def isAbortPatternMessage (message : String) : Bool :=
  includesSubstr message "BodyStreamBuffer was aborted" ||
  includesSubstr message "signal is aborted without reason"

/-- An error value received through the subscription, with the
`extensions.visibility` marker the source tests for structured errors. -/
structure SubError where
  message : String
  hasVisibilityExtension : Bool
  deriving DecidableEq, Repr

/-- One `\x7b data, error, hasNext \x7d` result pushed by the source. -/
structure SubResult (α : Type) where
  data : Option α := none
  error : Option SubError := none
  hasNext : Bool := false
  deriving DecidableEq, Repr

/-- The externally visible actions `asStream`'s observer can take for one
result. -/
inductive AsStreamAction (α : Type) where
  | enqueue (data : Option α)
  | close
  | errorOut (message : String)
  | handleGQLErrors (message : String)
  | warnSuppressed
  deriving DecidableEq, Repr

/-- One step of the observer installed by `DirectAgUiRuntimeClient.asStream`
(source lines 241-284), in source order: an abort-pattern error closes the
stream when `hasNext` is false and is otherwise only logged; an error with a
`visibility` extension is routed to `handleGQLErrors` as a synthetic GraphQL
error without erroring the stream; any other error errors the stream and is
routed to `handleGQLErrors`; a data result is enqueued, closing when
`hasNext` is false. -/
def asStreamStep {α : Type} (result : SubResult α) : List (AsStreamAction α) :=
  match result.error with
  | some e =>
      if isAbortPatternMessage e.message then
        (if result.hasNext then [] else [.close]) ++ [.warnSuppressed]
      else if e.hasVisibilityExtension then
        [.handleGQLErrors e.message]
      else
        [.errorOut e.message, .handleGQLErrors e.message]
  | none => [.enqueue result.data]
      ++ (if result.hasNext then [] else [.close])

/-! ## Version-compatibility check
(`DirectAgUiRuntimeClient.createFetchFn`, source lines 86-137)

The fetch wrapper inspects the response after each request.  The inspection
is a pure function of the response, the configured public API key, and the
client's compiled-in version; its outcome is either a raised error or the
response together with the warnings emitted through the warning callback. -/

/-- Modelled from the spec: `getPossibleVersionMismatch` lives in
`@copilotkit/shared`, which is not under `src/`.  Per the spec (section
4.3), a mismatch is reported when the backend's runtime-version response
header is present and does not match the adapter's own compiled-in client
version. -/
def getPossibleVersionMismatch (runtimeVersion : Option String)
    (runtimeClientGqlVersion : String) : Option String :=
  match runtimeVersion with
  | none => none
  | some v =>
      if v ≠ runtimeClientGqlVersion then
        some ("Runtime version " ++ v ++ " does not match client version "
          ++ runtimeClientGqlVersion)
      else none

/-- An HTTP response as the version check reads it. -/
structure HttpResponse where
  status : Nat
  runtimeVersionHeader : Option String := none
  deriving DecidableEq, Repr

/-- The errors the fetch wrapper can raise from the status/version check. -/
inductive FetchCheckError where
  | versionMismatch (message : String)
  | resolvedError (status : Nat)
  deriving DecidableEq, Repr

/-- The response inspection of `createFetchFn` (source lines 101-122):
compute the possible mismatch (skipped entirely when a public API key is
configured); for a non-200 status in 400..500 raise
`CopilotKitVersionMismatchError` when a mismatch exists and
`ResolvedCopilotKitError` otherwise; for every other status emit the
mismatch, if any, through the warning callback (when one is registered) and
return the response. -/
def fetchPostProcess (publicApiKey : Option String)
    (runtimeClientGqlVersion : String) (hasWarningHandler : Bool)
    (response : HttpResponse) :
    Except FetchCheckError (HttpResponse × List String) :=
  let mismatch :=
    if publicApiKey.isSome then none
    else getPossibleVersionMismatch response.runtimeVersionHeader runtimeClientGqlVersion
  if response.status ≠ 200 ∧ 400 ≤ response.status ∧ response.status ≤ 500 then
    match mismatch with
    | some m => .error (.versionMismatch m)
    | none => .error (.resolvedError response.status)
  else
    .ok (response,
      match mismatch with
      | some m => if hasWarningHandler then [m] else []
      | none => [])

/-! ## Error deduplication
(`use-copilot-agui-client.ts`, `errorSubscribers` / `onRunFailed`,
source lines 96-127)

The deduplication cache is the hook's `lastStructuredErrorRef`; one
`onRunFailed` call is a pure function of the agent name, the error message,
the dev-console flag, the current time, and the cache, returning the action
taken and the new cache.  `Date.now()` timestamps are naturals (the
`now - last.timestamp < 150` test agrees with JavaScript arithmetic for
non-decreasing timestamps). -/

structure DedupEntry where
  message : String
  timestamp : Nat
  deriving DecidableEq, Repr

inductive RunFailedOutcome where
  | hiddenConsoleOnly
  | skipDuplicate
  | banner (message : String)
  deriving DecidableEq, Repr

def onRunFailed (agentName : String) (errorMessage : String) (isDev : Bool)
    (now : Nat) (lastRef : Option DedupEntry) :
    RunFailedOutcome × Option DedupEntry :=
  if !isDev then
    (.hiddenConsoleOnly, lastRef)
  else
    let dedupKey := agentName ++ ": " ++ errorMessage
    match lastRef with
    | some last =>
        if last.message = dedupKey ∧ now - last.timestamp < 150 then
          (.skipDuplicate, lastRef)
        else
          (.banner ("Agent " ++ agentName ++ ": " ++ errorMessage),
           some { message := dedupKey, timestamp := now })
    | none =>
        (.banner ("Agent " ++ agentName ++ ": " ++ errorMessage),
         some { message := dedupKey, timestamp := now })

/-- How many banner events a list of outcomes contains. -/
def bannerCount (outcomes : List RunFailedOutcome) : Nat :=
  outcomes.countP fun o =>
    match o with
    | .banner _ => true
    | _ => false

/-! ## Agent resolution
(`use-copilot-agui-client.ts`, `aguiClients` / `getClientForAgent`,
source lines 72-90 and 133-141)

A JavaScript `Record<string, HttpAgent>` built by iterating the endpoint
entries is an association list here; property lookup is `List.lookup`. -/

/-- The fields `new HttpAgent(\x7b...\x7d)` is constructed with. -/
structure HttpAgentModel where
  url : String
  headers : List (String × String) := []
  agentId : Option String := none
  threadId : Option String := none
  debug : Bool := false
  deriving DecidableEq, Repr

/-- The `aguiClients` memo (source lines 72-90): no clients when disabled or
when the endpoint map is empty; otherwise one `HttpAgent` per endpoint
entry, with `agentId` set only for non-`"default"` names. -/
def buildAguiClients (enabled : Bool) (endpoints : List (String × String))
    (headers : List (String × String)) (threadId : Option String)
    (debug : Bool) : List (String × HttpAgentModel) :=
  if !enabled || endpoints.isEmpty then []
  else
    endpoints.map fun p =>
      (p.1, { url := p.2, headers := headers,
              agentId := if p.1 ≠ "default" then some p.1 else none,
              threadId := threadId, debug := debug })

/-- `getClientForAgent` (source lines 133-141).  `!agentName` is true for an
absent name and for the empty string; otherwise the named client, falling
back to the `"default"` client, falling back to `null`. -/
def getClientForAgent (clients : List (String × HttpAgentModel))
    (agentName : Option String) : Option HttpAgentModel :=
  if (match agentName with | none => true | some s => s = "") then
    clients.lookup "default"
  else
    match clients.lookup (agentName.getD "") with
    | some client => some client
    | none => clients.lookup "default"

/-! ## `removeGraphQLTypename`
(`CopilotRuntimeDirectClient.ts`, source lines 390-402, and the identical
static method of `DirectAgUiRuntimeClient.ts`, lines 354-366)

The source mutates its argument and returns it; the embedding is the value
transformation the mutation performs: the returned value is the final value
of the argument object. -/

mutual

/-- `removeGraphQLTypename`: an array recurses into every element (the call
is a no-op on non-objects); an object deletes its `__typename` key and then
recurses into those remaining values for which
`typeof data[key] === "object" && data[key] !== null`; anything else is
untouched.  The source deletes the key first and then iterates the remaining
keys; the field walk below fuses the two passes, dropping `__typename`
entries as it meets them, which yields the same final object value. -/
def removeGraphQLTypename : J → J
  | .arr items => .arr (removeGraphQLTypenameItems items)
  | .obj fields => .obj (removeGraphQLTypenameFields fields)
  | j => j

def removeGraphQLTypenameItems : List J → List J
  | [] => []
  | j :: rest => removeGraphQLTypename j :: removeGraphQLTypenameItems rest

def removeGraphQLTypenameFields : List (String × J) → List (String × J)
  | [] => []
  | (k, v) :: rest =>
      if k = "__typename" then removeGraphQLTypenameFields rest
      else
        (k, if v.isObjLike then removeGraphQLTypename v else v)
          :: removeGraphQLTypenameFields rest

end

mutual

/-- No object at any depth has a `__typename` key. -/
def noTypename : J → Bool
  | .arr items => noTypenameItems items
  | .obj fields =>
      (fields.all fun p => p.1 ≠ "__typename") && noTypenameFields fields
  | _ => true

def noTypenameItems : List J → Bool
  | [] => true
  | j :: rest => noTypename j && noTypenameItems rest

def noTypenameFields : List (String × J) → Bool
  | [] => true
  | (_, v) :: rest => noTypename v && noTypenameFields rest

end

/-! ## Claim theorems -/

/-- Claim C9: a TextMessage converts to a wire message with the same id, the
same content, and the role mapped User→"user", Assistant→"assistant",
System→"system", Developer→"developer", with unrecognized roles (the `tool`
enum value, which the switch does not enumerate) defaulting to "user"; no
tool calls are attached, so a single user text message passes through
unchanged. -/
theorem claim_C9_text_passthrough (gen : Nat → String) (id content : String)
    (role : Role) :
    copilotKitToAgui gen [.text id role content] =
      [{ id := id,
         role := match role with
                 | .user => "user"
                 | .assistant => "assistant"
                 | .system => "system"
                 | .developer => "developer"
                 | .tool => "user",
         content := content,
         toolCalls := none,
         toolCallId := none }]
    ∧ copilotKitToAgui gen [.text "m1" .user "hi"] =
        [{ id := "m1", role := "user", content := "hi" }] := by
  refine ⟨?_, rfl⟩
  cases role <;> rfl

/-- The translator's output record for `text_message_start` of message
`mid` (with `mid` non-empty, so the `randomId()` fallback is not taken). -/
def textStartRecord (now mid : String) : GQLOutput :=
  { typename := "TextMessageOutput", id := some mid, createdAt := some now,
    role := some "assistant", content := some "", status := some StatusCode.pending }

/-- The translator's output record for `text_message_content`. -/
def textContentRecord (mid delta : String) : GQLOutput :=
  { typename := "TextMessageOutput", id := some mid,
    content := some delta, role := some "assistant" }

/-- The translator's output record for `text_message_end`. -/
def textEndRecord (mid : String) : GQLOutput :=
  { typename := "TextMessageOutput", id := some mid,
    status := some StatusCode.success }

lemma translatorOutputs_content_segment (url freshId now mid : String)
    (deltas : List String) :
    translatorOutputs url freshId now
        (deltas.map (AGUIEvent.textMessageContent mid)) =
      deltas.map (textContentRecord mid) := by
  induction deltas with
  | nil => rfl
  | cons d rest ih =>
      simpa [translatorOutputs, List.filterMap_cons, convertAGUIEventToGQL,
        Except.toOption, Option.join, textContentRecord] using ih

/-- Claim C2: for an event sequence `text_message_start`,
`text_message_content`*, `text_message_end` sharing one (non-empty) message
id, the emitted Output records are exactly a PENDING record, the content
records (which carry no status), and a SUCCESS record; the status sequence
therefore never regresses, the concatenation of the emitted content deltas
equals the full final text, and every record carries the shared message
id. -/
theorem claim_C2_text_lifecycle (url freshId now mid : String)
    (deltas : List String) (hmid : mid ≠ "") :
    translatorOutputs url freshId now
        (AGUIEvent.textMessageStart mid ::
          (deltas.map (AGUIEvent.textMessageContent mid)
            ++ [AGUIEvent.textMessageEnd mid])) =
      textStartRecord now mid ::
        (deltas.map (textContentRecord mid) ++ [textEndRecord mid])
    ∧ (translatorOutputs url freshId now
        (AGUIEvent.textMessageStart mid ::
          (deltas.map (AGUIEvent.textMessageContent mid)
            ++ [AGUIEvent.textMessageEnd mid]))).map GQLOutput.status =
      some StatusCode.pending ::
        (List.replicate deltas.length none ++ [some StatusCode.success])
    ∧ String.join ((translatorOutputs url freshId now
        (AGUIEvent.textMessageStart mid ::
          (deltas.map (AGUIEvent.textMessageContent mid)
            ++ [AGUIEvent.textMessageEnd mid]))).filterMap GQLOutput.content) =
      String.join deltas
    ∧ ∀ o ∈ translatorOutputs url freshId now
        (AGUIEvent.textMessageStart mid ::
          (deltas.map (AGUIEvent.textMessageContent mid)
            ++ [AGUIEvent.textMessageEnd mid])),
        o.id = some mid := by
  have happ : ∀ es₁ es₂ : List AGUIEvent,
      translatorOutputs url freshId now (es₁ ++ es₂) =
        translatorOutputs url freshId now es₁ ++ translatorOutputs url freshId now es₂ := by
    intro es₁ es₂
    simp [translatorOutputs, List.filterMap_append]
  have hstart : ∀ es : List AGUIEvent,
      translatorOutputs url freshId now (AGUIEvent.textMessageStart mid :: es) =
        textStartRecord now mid :: translatorOutputs url freshId now es := by
    intro es
    simp [translatorOutputs, List.filterMap_cons, convertAGUIEventToGQL,
      Except.toOption, Option.join, hmid, textStartRecord]
  have hend : translatorOutputs url freshId now [AGUIEvent.textMessageEnd mid] =
      [textEndRecord mid] := rfl
  have hmain : translatorOutputs url freshId now
      (AGUIEvent.textMessageStart mid ::
        (deltas.map (AGUIEvent.textMessageContent mid)
          ++ [AGUIEvent.textMessageEnd mid])) =
      textStartRecord now mid ::
        (deltas.map (textContentRecord mid) ++ [textEndRecord mid]) := by
    rw [hstart, happ, translatorOutputs_content_segment, hend]
  refine ⟨hmain, ?_, ?_, ?_⟩
  · rw [hmain]
    simp [textStartRecord, textContentRecord, textEndRecord, List.map_map,
      Function.comp_def]
  · rw [hmain]
    simp only [List.filterMap_cons, List.filterMap_append, textStartRecord,
      textContentRecord, textEndRecord, List.filterMap_map, Function.comp_def]
    simp [String.join]
  · rw [hmain]
    intro o ho
    rcases List.mem_cons.mp ho with h | h
    · subst h; rfl
    · rcases List.mem_append.mp h with h | h
      · obtain ⟨d, _, rfl⟩ := List.mem_map.mp h
        rfl
      · simp only [List.mem_singleton] at h
        subst h; rfl

/-- Witness for C2 at a concrete message id and two content deltas. -/
theorem claim_C2_text_lifecycle_witness :
    ("m1" : String) ≠ ""
    ∧ translatorOutputs "u" "f" "t"
        (AGUIEvent.textMessageStart "m1" ::
          ((["he", "llo"].map (AGUIEvent.textMessageContent "m1"))
            ++ [AGUIEvent.textMessageEnd "m1"])) =
      textStartRecord "t" "m1" ::
        ((["he", "llo"].map (textContentRecord "m1")) ++ [textEndRecord "m1"]) :=
  ⟨by decide, (claim_C2_text_lifecycle "u" "f" "t" "m1" ["he", "llo"] (by decide)).1⟩

/-- Claim C1 fails on the code: at a concrete ActionExecutionMessage, the
tool-call entry's id is the action-execution message's own id `"ae-1"`, not
the freshly generated id (which instead becomes the enveloping wire
message's id `"fresh-0"`). -/
theorem claim_C1_counterexample :
    copilotKitToAgui (fun n => "fresh-" ++ toString n)
        [.actionExecution "ae-1" "doSearch" (J.obj [("q", J.str "x")])] =
      [{ id := "fresh-0", role := "assistant", content := "",
         toolCalls := some [{ id := "ae-1", type := "function",
                              function := { name := "doSearch",
                                            arguments := "\x7b\"q\":\"x\"\x7d" } }],
         toolCallId := none }]
    ∧ ("ae-1" : String) ≠ "fresh-0" := by
  exact ⟨rfl, by decide⟩

/-- Claim C1 (amended): every ActionExecutionMessage converts to an
assistant wire message with empty content and exactly one tool-call entry of
type "function" carrying the action's name and JSON-serialized arguments;
the tool-call entry's id is the action-execution message's own id, while the
enveloping wire message's id is the freshly generated unique id. -/
theorem claim_C1_amended_conversion (gen : Nat → String) (k : Nat)
    (id name : String) (arguments : J) (rest : List CKMessage) :
    copilotKitToAguiAux gen k (.actionExecution id name arguments :: rest) =
      { id := gen k, role := "assistant", content := "",
        toolCalls := some [{ id := id, type := "function",
                             function := { name := name,
                                           arguments := jsonStringify arguments } }],
        toolCallId := none } :: copilotKitToAguiAux gen (k + 1) rest := rfl

/-- Claim C3 fails on the code: two ActionExecutionMessages with different
names and different arguments round-trip (`copilotKitToAgui` then
`aguiToCopilotKit`) to identical results, so the round trip cannot preserve
the action's name or arguments. -/
theorem claim_C3_counterexample :
    aguiToCopilotKit (copilotKitToAgui (fun n => "fresh-" ++ toString n)
        [.actionExecution "a1" "alpha" (J.obj [("x", J.num 1)])]) =
      aguiToCopilotKit (copilotKitToAgui (fun n => "fresh-" ++ toString n)
        [.actionExecution "a2" "beta" (J.obj [("y", J.num 2)])])
    ∧ ("alpha" : String) ≠ "beta" := by
  exact ⟨rfl, by decide⟩

/-- Claim C3 (amended): round-tripping an ActionExecutionMessage through
`copilotKitToAgui` and `aguiToCopilotKit` does not preserve the action's
name or arguments: the reverse conversion keeps only id, content and role,
so the round trip yields a single plain record with the freshly generated
envelope id, empty content, and role "assistant". -/
theorem claim_C3_amended_roundtrip (gen : Nat → String) (id name : String)
    (arguments : J) :
    aguiToCopilotKit (copilotKitToAgui gen [.actionExecution id name arguments]) =
      [{ id := gen 0, content := "", role := "assistant" }] := rfl

/-- Claim C4: an `error` protocol event makes the translator raise a
`CopilotKitLowLevelError` carrying the originating url and the event's
message, and no normal Output record is produced. -/
theorem claim_C4_error_event (url freshId now message : String)
    (hm : message ≠ "") (hu : url ≠ "") :
    convertAGUIEventToGQL url freshId now (.errorEvent message) =
      .error { errorMessage := message, url := url, message := message }
    ∧ ∀ out : Option GQLOutput,
        convertAGUIEventToGQL url freshId now (.errorEvent message) ≠ .ok out := by
  constructor
  · simp [convertAGUIEventToGQL, hm, hu]
  · intro out h
    simp [convertAGUIEventToGQL, hm, hu] at h

/-- Witness for C4 at a concrete url and event message. -/
theorem claim_C4_error_event_witness :
    ("boom" : String) ≠ "" ∧ ("http://agent" : String) ≠ ""
    ∧ (convertAGUIEventToGQL "http://agent" "f" "t" (.errorEvent "boom") =
        .error { errorMessage := "boom", url := "http://agent", message := "boom" }
      ∧ ∀ out : Option GQLOutput,
          convertAGUIEventToGQL "http://agent" "f" "t" (.errorEvent "boom") ≠ .ok out) :=
  ⟨by decide, by decide,
   claim_C4_error_event "http://agent" "f" "t" "boom" (by decide) (by decide)⟩

/-- Claim C6 fails on the code: a 404 response whose runtime-version header
differs from the client version makes `createFetchFn` throw a
`CopilotKitVersionMismatchError` (the request fails) and the warning callback
is never invoked. -/
theorem claim_C6_counterexample :
    fetchPostProcess none "1.0.0" true
        { status := 404, runtimeVersionHeader := some "9.9.9" } =
      .error (.versionMismatch
        "Runtime version 9.9.9 does not match client version 1.0.0")
    ∧ ("9.9.9" : String) ≠ "1.0.0" := by
  exact ⟨rfl, by decide⟩

/-- Claim C6 (amended): when no public API key is configured and the
response status is 200 (or any status outside 400..500), a runtime-version
header differing from the client's compiled-in version emits exactly one
non-fatal warning through the warning callback and the request succeeds;
when the status is in 400..500, a `CopilotKitVersionMismatchError` is raised
instead and no warning is emitted. -/
theorem claim_C6_amended_version_check (v c : String) (status : Nat)
    (hdiff : v ≠ c)
    (hok : status = 200 ∨ ¬(400 ≤ status ∧ status ≤ 500)) :
    fetchPostProcess none c true { status := status, runtimeVersionHeader := some v } =
      .ok ({ status := status, runtimeVersionHeader := some v },
        ["Runtime version " ++ v ++ " does not match client version " ++ c])
    ∧ ∀ status', status' ≠ 200 → 400 ≤ status' → status' ≤ 500 →
        fetchPostProcess none c true
            { status := status', runtimeVersionHeader := some v } =
          .error (.versionMismatch
            ("Runtime version " ++ v ++ " does not match client version " ++ c)) := by
  constructor
  · have hcond : ¬(status ≠ 200 ∧ 400 ≤ status ∧ status ≤ 500) := by
      rcases hok with h | h
      · simp [h]
      · intro hc; exact h hc.2
    simp [fetchPostProcess, getPossibleVersionMismatch, hdiff, hcond]
  · intro status' h1 h2 h3
    simp [fetchPostProcess, getPossibleVersionMismatch, hdiff, h1, h2, h3]

/-- Witness for the amended C6 at concrete versions and statuses. -/
theorem claim_C6_amended_version_check_witness :
    ("9.9.9" : String) ≠ "1.0.0" ∧ ((200 : Nat) = 200 ∨ ¬(400 ≤ 200 ∧ 200 ≤ 500))
    ∧ (fetchPostProcess none "1.0.0" true
          { status := 200, runtimeVersionHeader := some "9.9.9" } =
        .ok ({ status := 200, runtimeVersionHeader := some "9.9.9" },
          ["Runtime version 9.9.9 does not match client version 1.0.0"])
      ∧ ∀ status', status' ≠ 200 → 400 ≤ status' → status' ≤ 500 →
          fetchPostProcess none "1.0.0" true
              { status := status', runtimeVersionHeader := some "9.9.9" } =
            .error (.versionMismatch
              "Runtime version 9.9.9 does not match client version 1.0.0")) :=
  ⟨by decide, by decide,
   claim_C6_amended_version_check "9.9.9" "1.0.0" 200 (by decide) (Or.inl rfl)⟩

/-- Claim C7: two classified errors with identical messages fire the banner
exactly once when the second arrives strictly less than 150ms after the
first was shown, and twice when the second arrives 200ms after the first. -/
theorem claim_C7_dedup_window (agentName errMsg : String) (t1 t2 : Nat)
    (h12 : t1 ≤ t2) :
    (t2 - t1 < 150 →
      bannerCount [(onRunFailed agentName errMsg true t1 none).1,
        (onRunFailed agentName errMsg true t2
          (onRunFailed agentName errMsg true t1 none).2).1] = 1)
    ∧ (t2 = t1 + 200 →
      bannerCount [(onRunFailed agentName errMsg true t1 none).1,
        (onRunFailed agentName errMsg true t2
          (onRunFailed agentName errMsg true t1 none).2).1] = 2) := by
  constructor
  · intro hlt
    simp [onRunFailed, bannerCount, hlt]
  · intro h200
    subst h200
    have h150 : ¬(t1 + 200 - t1 < 150) := by omega
    simp [onRunFailed, bannerCount, h150]

/-- Witness for C7 at concrete timestamps 1000/1100 (within the window). -/
theorem claim_C7_dedup_window_witness :
    (1000 : Nat) ≤ 1100
    ∧ ((1100 - 1000 < 150 →
        bannerCount [(onRunFailed "a" "boom" true 1000 none).1,
          (onRunFailed "a" "boom" true 1100
            (onRunFailed "a" "boom" true 1000 none).2).1] = 1)
      ∧ (1100 = 1000 + 200 →
        bannerCount [(onRunFailed "a" "boom" true 1000 none).1,
          (onRunFailed "a" "boom" true 1100
            (onRunFailed "a" "boom" true 1000 none).2).1] = 2)) :=
  ⟨by decide, claim_C7_dedup_window "a" "boom" 1000 1100 (by decide)⟩

/-- Association-list lookup commutes with a key-preserving entry map. -/
lemma lookup_map_entries {β : Type} (l : List (String × String))
    (f : String → String → β) (k : String) :
    (l.map fun p => (p.1, f p.1 p.2)).lookup k = (l.lookup k).map (f k) := by
  induction l with
  | nil => rfl
  | cons a rest ih =>
      obtain ⟨ka, va⟩ := a
      by_cases hk : k = ka
      · subst hk
        simp [List.lookup]
      · simp [List.lookup, beq_false_of_ne hk, ih]

/-- Looking up a client built by the `aguiClients` memo resolves through the
endpoint map. -/
lemma lookup_buildAguiClients (endpoints headers : List (String × String))
    (threadId : Option String) (debug : Bool) (hne : endpoints ≠ []) (k : String) :
    (buildAguiClients true endpoints headers threadId debug).lookup k =
      (endpoints.lookup k).map fun u =>
        { url := u, headers := headers,
          agentId := if k ≠ "default" then some k else none,
          threadId := threadId, debug := debug } := by
  have hempty : endpoints.isEmpty = false := by
    cases endpoints with
    | nil => exact absurd rfl hne
    | cons a rest => rfl
  unfold buildAguiClients
  rw [hempty]
  simpa using lookup_map_entries endpoints
    (fun nm u => ({ url := u, headers := headers,
                    agentId := if nm ≠ "default" then some nm else none,
                    threadId := threadId, debug := debug } : HttpAgentModel)) k

/-- Claim C8: `getClientForAgent` returns the client bound to the requested
(non-empty) name's URL when the name is in the endpoint map, falls back to
the `"default"` client when the name is absent or no name is given, and
returns `none` (not an error) when neither the name nor `"default"` has a
client. -/
theorem claim_C8_agent_resolution (endpoints headers : List (String × String))
    (threadId : Option String) (debug : Bool) (name : String)
    (hname : name ≠ "") (hne : endpoints ≠ []) :
    (∀ url, endpoints.lookup name = some url →
      (getClientForAgent (buildAguiClients true endpoints headers threadId debug)
          (some name)).map HttpAgentModel.url = some url)
    ∧ (∀ durl, endpoints.lookup "default" = some durl →
      (getClientForAgent (buildAguiClients true endpoints headers threadId debug)
          none).map HttpAgentModel.url = some durl)
    ∧ (endpoints.lookup name = none → ∀ durl, endpoints.lookup "default" = some durl →
      (getClientForAgent (buildAguiClients true endpoints headers threadId debug)
          (some name)).map HttpAgentModel.url = some durl)
    ∧ (endpoints.lookup name = none → endpoints.lookup "default" = none →
      getClientForAgent (buildAguiClients true endpoints headers threadId debug)
          (some name) = none)
    ∧ (endpoints.lookup "default" = none →
      getClientForAgent (buildAguiClients true endpoints headers threadId debug)
          none = none) := by
  have hlkn := lookup_buildAguiClients endpoints headers threadId debug hne name
  have hlkd := lookup_buildAguiClients endpoints headers threadId debug hne "default"
  refine ⟨?_, ?_, ?_, ?_, ?_⟩
  · intro url hurl
    simp [getClientForAgent, hname, hlkn, hurl]
  · intro durl hdurl
    simp [getClientForAgent, hlkd, hdurl]
  · intro habs durl hdurl
    simp [getClientForAgent, hname, hlkn, habs, hlkd, hdurl]
  · intro habs hdabs
    simp [getClientForAgent, hname, hlkn, habs, hlkd, hdabs]
  · intro hdabs
    simp [getClientForAgent, hlkd, hdabs]

/-- Witness for C8 on the spec's example map: `a` resolves to its own URL,
the absent `b` and the absent name fall back to the `"default"` URL. -/
theorem claim_C8_agent_resolution_witness :
    ("a" : String) ≠ "" ∧ ("b" : String) ≠ ""
    ∧ ([("a", "u1"), ("default", "u2")] : List (String × String)) ≠ []
    ∧ (getClientForAgent
        (buildAguiClients true [("a", "u1"), ("default", "u2")] [] none false)
        (some "a")).map HttpAgentModel.url = some "u1"
    ∧ (getClientForAgent
        (buildAguiClients true [("a", "u1"), ("default", "u2")] [] none false)
        (some "b")).map HttpAgentModel.url = some "u2"
    ∧ (getClientForAgent
        (buildAguiClients true [("a", "u1"), ("default", "u2")] [] none false)
        none).map HttpAgentModel.url = some "u2" := by
  refine ⟨by decide, by decide, by decide, ?_, ?_, ?_⟩
  · exact (claim_C8_agent_resolution [("a", "u1"), ("default", "u2")] [] none false
      "a" (by decide) (by decide)).1 "u1" (by decide)
  · exact (claim_C8_agent_resolution [("a", "u1"), ("default", "u2")] [] none false
      "b" (by decide) (by decide)).2.2.1 (by decide) "u2" (by decide)
  · exact (claim_C8_agent_resolution [("a", "u1"), ("default", "u2")] [] none false
      "b" (by decide) (by decide)).2.1 "u2" (by decide)

/-- Stream contents of a run whose live emissions all convert cleanly,
terminated by the abort listener's `close`: the cleanly emitted records, and
a clean close. -/
lemma streamContents_producer_clean (url freshId now : String) :
    ∀ (l : List SourceEmission) (tail : List ControllerOp),
      (∀ e ∈ l, isCleanNext url freshId now e = true) →
      streamContents (producerOpsLive url freshId now l ++ ControllerOp.close :: tail) =
        (l.filterMap (emittedRecord url freshId now), StreamEnd.closed) := by
  intro l
  induction l with
  | nil => intro tail _; rfl
  | cons e rest ih =>
      intro tail hclean
      have he : isCleanNext url freshId now e = true := hclean e (List.mem_cons_self e rest)
      have hrest : ∀ x ∈ rest, isCleanNext url freshId now x = true := by
        intro x hx; exact hclean x (List.mem_cons_of_mem e hx)
      cases e with
      | next event =>
          rcases hconv : convertAGUIEventToGQL url freshId now event with err | o
          · rw [isCleanNext, hconv] at he
            exact absurd he (by simp)
          · cases o with
            | none =>
                have hrec : emittedRecord url freshId now (SourceEmission.next event) = none := by
                  simp [emittedRecord, hconv, Except.toOption, Option.join]
                simp only [producerOpsLive, hconv, List.filterMap_cons, hrec]
                exact ih tail hrest
            | some record =>
                have hrec : emittedRecord url freshId now (SourceEmission.next event) =
                    some record := by
                  simp [emittedRecord, hconv, Except.toOption, Option.join]
                simp only [producerOpsLive, hconv, List.cons_append, streamContents,
                  List.filterMap_cons, hrec]
                rw [ih tail hrest]
      | error message => simp [isCleanNext] at he
      | complete => simp [isCleanNext] at he

/-- The pump delivers a prefix of the stream's chunks as `next` callbacks and
then exactly one `complete`, whatever the abort flag does. -/
lemma pumpLoop_shape (ab : Nat → Bool) :
    ∀ (chunks : List GQLOutput) (i : Nat),
      ∃ n, pumpLoop ab i (chunks.map ReadResult.value ++ [ReadResult.done]) =
        (chunks.take n).map CBEvent.next ++ [CBEvent.complete] := by
  intro chunks
  induction chunks with
  | nil => intro i; exact ⟨0, rfl⟩
  | cons c cs ih =>
      intro i
      by_cases hab : ab i = true
      · exact ⟨0, by simp [pumpLoop, hab]⟩
      · obtain ⟨n, hn⟩ := ih (i + 1)
        refine ⟨n + 1, ?_⟩
        simp only [List.map_cons, List.cons_append, pumpLoop, hab, if_false,
          Bool.false_eq_true, List.take_succ_cons, List.append_eq]
        rw [hn]

/-- The full subscriber trace (including the subscribe-time abort check) has
the same prefix-then-complete shape. -/
lemma subscribeTrace_shape (ab : Nat → Bool) (chunks : List GQLOutput) :
    ∃ n, subscribeTrace ab (chunks.map ReadResult.value ++ [ReadResult.done]) =
      (chunks.take n).map CBEvent.next ++ [CBEvent.complete] := by
  unfold subscribeTrace
  by_cases hab : ab 0 = true
  · exact ⟨0, by simp [hab]⟩
  · simpa [hab] using pumpLoop_shape ab chunks 0

/-- Claim C5: once the cancellation signal fires before the stream completes
(the first `kp` source emissions are clean protocol events and the abort
listener closes the controller at that point), the stream ends in a clean
close, the subscriber's callback trace is a prefix of the emitted records
followed by exactly one `onComplete` — no `onError`, and no callback after
the `onComplete` — and any in-flight error whose message matches a known
abort-induced pattern is swallowed by `asStream` (it only closes the stream
and logs; it is never surfaced through `controller.error` or
`handleGQLErrors`). -/
theorem claim_C5_cancellation (url freshId now : String)
    (es : List SourceEmission) (kp : Nat) (abC : Nat → Bool)
    (hclean : ∀ e ∈ es.take kp, isCleanNext url freshId now e = true) :
    (streamContents (opsWithAbort url freshId now kp es)).2 = StreamEnd.closed
    ∧ (∃ n, subscribeTrace abC
          (toReads (streamContents (opsWithAbort url freshId now kp es))) =
        (((streamContents (opsWithAbort url freshId now kp es)).1.take n).map
          CBEvent.next) ++ [CBEvent.complete])
    ∧ (∀ (msg : String) (hasNext : Bool) (d : Option GQLOutput),
        isAbortPatternMessage msg = true →
        ∀ a ∈ asStreamStep (⟨d, some ⟨msg, false⟩, hasNext⟩ : SubResult GQLOutput),
          a = AsStreamAction.close ∨ a = AsStreamAction.warnSuppressed) := by
  have hops : opsWithAbort url freshId now kp es =
      producerOpsLive url freshId now (es.take kp) ++
        ControllerOp.close :: producerOpsAborted (es.drop kp) := by
    simp [opsWithAbort]
  have hsc := streamContents_producer_clean url freshId now (es.take kp)
    (producerOpsAborted (es.drop kp)) hclean
  rw [hops, hsc]
  refine ⟨rfl, ?_, ?_⟩
  · simpa [toReads] using
      subscribeTrace_shape abC ((es.take kp).filterMap (emittedRecord url freshId now))
  · intro msg hasNext d hpat a ha
    cases hasNext with
    | true =>
        simp [asStreamStep, hpat] at ha
        subst ha
        exact Or.inr rfl
    | false =>
        simp [asStreamStep, hpat] at ha
        rcases ha with h | h
        · exact Or.inl h
        · exact Or.inr h

/-- Witness for C5: a concrete stream of two clean text events aborted after
the second emission, with the consumer observing the abort from its second
iteration on, and a concrete abort-pattern error. -/
theorem claim_C5_cancellation_witness :
    (∀ e ∈ ([SourceEmission.next (AGUIEvent.textMessageStart "m1"),
              SourceEmission.next (AGUIEvent.textMessageContent "m1" "hi"),
              SourceEmission.next (AGUIEvent.textMessageEnd "m1")].take 2),
        isCleanNext "http://x" "f1" "t0" e = true)
    ∧ ((streamContents (opsWithAbort "http://x" "f1" "t0" 2
          [SourceEmission.next (AGUIEvent.textMessageStart "m1"),
           SourceEmission.next (AGUIEvent.textMessageContent "m1" "hi"),
           SourceEmission.next (AGUIEvent.textMessageEnd "m1")])).2 = StreamEnd.closed
      ∧ (∃ n, subscribeTrace (fun i => decide (2 ≤ i))
            (toReads (streamContents (opsWithAbort "http://x" "f1" "t0" 2
              [SourceEmission.next (AGUIEvent.textMessageStart "m1"),
               SourceEmission.next (AGUIEvent.textMessageContent "m1" "hi"),
               SourceEmission.next (AGUIEvent.textMessageEnd "m1")]))) =
          (((streamContents (opsWithAbort "http://x" "f1" "t0" 2
              [SourceEmission.next (AGUIEvent.textMessageStart "m1"),
               SourceEmission.next (AGUIEvent.textMessageContent "m1" "hi"),
               SourceEmission.next (AGUIEvent.textMessageEnd "m1")])).1.take n).map
            CBEvent.next) ++ [CBEvent.complete])
      ∧ (∀ (msg : String) (hasNext : Bool) (d : Option GQLOutput),
          isAbortPatternMessage msg = true →
          ∀ a ∈ asStreamStep (⟨d, some ⟨msg, false⟩, hasNext⟩ : SubResult GQLOutput),
            a = AsStreamAction.close ∨ a = AsStreamAction.warnSuppressed)) :=
  ⟨by decide,
   claim_C5_cancellation "http://x" "f1" "t0"
     [SourceEmission.next (AGUIEvent.textMessageStart "m1"),
      SourceEmission.next (AGUIEvent.textMessageContent "m1" "hi"),
      SourceEmission.next (AGUIEvent.textMessageEnd "m1")]
     2 (fun i => decide (2 ≤ i)) (by decide)⟩

/-- Structural induction over the nested `J` type, with membership-indexed
hypotheses for array items and object field values. -/
theorem J.inductionOn {P : J → Prop}
    (hnull : P .null) (hbool : ∀ b, P (.bool b)) (hnum : ∀ n, P (.num n))
    (hstr : ∀ s, P (.str s))
    (harr : ∀ items, (∀ x ∈ items, P x) → P (.arr items))
    (hobj : ∀ fields, (∀ p ∈ fields, P p.2) → P (.obj fields)) :
    ∀ j, P j
  | .null => hnull
  | .bool b => hbool b
  | .num n => hnum n
  | .str s => hstr s
  | .arr items => harr items fun x hx =>
      have : sizeOf x < 1 + sizeOf items := by
        have h1 := List.sizeOf_lt_sizeOf_of_mem hx
        omega
      J.inductionOn hnull hbool hnum hstr harr hobj x
  | .obj fields => hobj fields fun p hp =>
      have : sizeOf p.2 < 1 + sizeOf fields := by
        have h1 := List.sizeOf_lt_sizeOf_of_mem hp
        have h2 : sizeOf p.2 < sizeOf p := by
          obtain ⟨k, v⟩ := p
          simp only [Prod.mk.sizeOf_spec]
          omega
        omega
      J.inductionOn hnull hbool hnum hstr harr hobj p.2
  termination_by j => sizeOf j

/-- The recursion guard of the object branch is redundant in value terms:
the call is the identity on non-object-like values. -/
lemma removeGraphQLTypename_guard (v : J) :
    (if v.isObjLike then removeGraphQLTypename v else v) = removeGraphQLTypename v := by
  cases v <;> rfl

lemma removeGraphQLTypenameItems_eq_map :
    ∀ items, removeGraphQLTypenameItems items = items.map removeGraphQLTypename := by
  intro items
  induction items with
  | nil => rfl
  | cons j rest ih => simp [removeGraphQLTypenameItems, ih]

lemma noTypenameItems_eq_all : ∀ items, noTypenameItems items = items.all noTypename := by
  intro items
  induction items with
  | nil => rfl
  | cons j rest ih => simp [noTypenameItems, ih]

lemma noTypenameFields_eq_all :
    ∀ fields, noTypenameFields fields = fields.all fun p => noTypename p.2 := by
  intro fields
  induction fields with
  | nil => rfl
  | cons p rest ih =>
      obtain ⟨k, v⟩ := p
      simp [noTypenameFields, ih]

/-- Every entry of the cleaned field list comes from an entry of the
original object: same key (never `__typename`), value cleaned. -/
lemma mem_removeGraphQLTypenameFields :
    ∀ (fields : List (String × J)) (p' : String × J),
      p' ∈ removeGraphQLTypenameFields fields →
      ∃ p ∈ fields, p'.1 = p.1 ∧ p'.2 = removeGraphQLTypename p.2
        ∧ p.1 ≠ "__typename" := by
  intro fields
  induction fields with
  | nil => intro p' h; simp [removeGraphQLTypenameFields] at h
  | cons q rest ih =>
      obtain ⟨k, v⟩ := q
      intro p' h
      by_cases hk : k = "__typename"
      · rw [removeGraphQLTypenameFields, if_pos hk] at h
        obtain ⟨p, hp, h1, h2, h3⟩ := ih p' h
        exact ⟨p, List.mem_cons_of_mem _ hp, h1, h2, h3⟩
      · rw [removeGraphQLTypenameFields, if_neg hk] at h
        rcases List.mem_cons.mp h with h | h
        · refine ⟨(k, v), List.mem_cons_self _ _, ?_, ?_, hk⟩
          · rw [h]
          · rw [h]
            simpa using removeGraphQLTypename_guard v
        · obtain ⟨p, hp, h1, h2, h3⟩ := ih p' h
          exact ⟨p, List.mem_cons_of_mem _ hp, h1, h2, h3⟩

lemma keys_removeGraphQLTypenameFields :
    ∀ fields : List (String × J),
      (removeGraphQLTypenameFields fields).map Prod.fst =
        (fields.map Prod.fst).filter fun k => k ≠ "__typename" := by
  intro fields
  induction fields with
  | nil => rfl
  | cons q rest ih =>
      obtain ⟨k, v⟩ := q
      by_cases hk : k = "__typename"
      · simp [removeGraphQLTypenameFields, hk, ih]
      · simp [removeGraphQLTypenameFields, hk, ih]

lemma lookup_removeGraphQLTypenameFields :
    ∀ (fields : List (String × J)) (k : String), k ≠ "__typename" →
      (removeGraphQLTypenameFields fields).lookup k =
        (fields.lookup k).map removeGraphQLTypename := by
  intro fields
  induction fields with
  | nil => intro k _; rfl
  | cons q rest ih =>
      obtain ⟨ka, v⟩ := q
      intro k hk
      by_cases hka : ka = "__typename"
      · have hne : k ≠ ka := fun h => hk (h.trans hka)
        rw [removeGraphQLTypenameFields, if_pos hka]
        simp [List.lookup, beq_false_of_ne hne, ih k hk]
      · rw [removeGraphQLTypenameFields, if_neg hka]
        by_cases hke : k = ka
        · subst hke
          simp [List.lookup, removeGraphQLTypename_guard v]
        · simp [List.lookup, beq_false_of_ne hke, ih k hk]

lemma noTypename_removeGraphQLTypename :
    ∀ j, noTypename (removeGraphQLTypename j) = true := by
  intro j
  refine @J.inductionOn (fun j => noTypename (removeGraphQLTypename j) = true)
    rfl (fun _ => rfl) (fun _ => rfl) (fun _ => rfl) ?_ ?_ j
  · intro items ihx
    simp only [removeGraphQLTypename, noTypename, removeGraphQLTypenameItems_eq_map,
      noTypenameItems_eq_all, List.all_eq_true]
    intro x hx
    obtain ⟨y, hy, rfl⟩ := List.mem_map.mp hx
    exact ihx y hy
  · intro fields ihp
    simp only [removeGraphQLTypename, noTypename, Bool.and_eq_true]
    constructor
    · rw [List.all_eq_true]
      intro p hp
      obtain ⟨q, _, h1, _, h3⟩ := mem_removeGraphQLTypenameFields fields p hp
      simp [h1, h3]
    · rw [noTypenameFields_eq_all, List.all_eq_true]
      intro p hp
      obtain ⟨q, hq, _, h2, _⟩ := mem_removeGraphQLTypenameFields fields p hp
      rw [h2]
      exact ihp q hq

/-- Claim C10: `removeGraphQLTypename` deletes the `__typename` key from
every object at every nesting depth (including objects inside arrays) and
leaves all other keys and values unchanged apart from the recursive
cleaning: the result is free of `__typename` keys everywhere, the remaining
object keys are exactly the original keys minus `__typename` in order,
lookups of any other key see the recursively cleaned original value, arrays
are cleaned element-wise, and non-object values are returned untouched (the
in-place mutation of the source makes the returned reference's value the
cleaned value of the input). -/
theorem claim_C10_remove_typename :
    (∀ j, noTypename (removeGraphQLTypename j) = true)
    ∧ (∀ fields : List (String × J),
        (removeGraphQLTypenameFields fields).map Prod.fst =
          (fields.map Prod.fst).filter fun k => k ≠ "__typename")
    ∧ (∀ (fields : List (String × J)) (k : String), k ≠ "__typename" →
        (removeGraphQLTypenameFields fields).lookup k =
          (fields.lookup k).map removeGraphQLTypename)
    ∧ (∀ items, removeGraphQLTypename (J.arr items) =
        J.arr (items.map removeGraphQLTypename))
    ∧ (∀ j, J.isObjLike j = false → removeGraphQLTypename j = j) :=
  ⟨noTypename_removeGraphQLTypename,
   keys_removeGraphQLTypenameFields,
   lookup_removeGraphQLTypenameFields,
   fun items => by
     simp [removeGraphQLTypename, removeGraphQLTypenameItems_eq_map],
   fun j hj => by
     cases j <;> simp_all [J.isObjLike, removeGraphQLTypename]⟩

/-- Witness for C10 on a concrete nested document with `__typename` keys at
three depths (object, nested object, object inside an array). -/
theorem claim_C10_remove_typename_witness :
    noTypename (removeGraphQLTypename
      (J.obj [("__typename", J.str "T"),
              ("a", J.obj [("__typename", J.str "N"), ("b", J.num 1)]),
              ("c", J.arr [J.obj [("__typename", J.str "A")]])])) = true
    ∧ ("a" : String) ≠ "__typename"
    ∧ (removeGraphQLTypenameFields
          [("__typename", J.str "T"),
           ("a", J.obj [("__typename", J.str "N"), ("b", J.num 1)]),
           ("c", J.arr [J.obj [("__typename", J.str "A")]])]).lookup "a" =
        (([("__typename", J.str "T"),
           ("a", J.obj [("__typename", J.str "N"), ("b", J.num 1)]),
           ("c", J.arr [J.obj [("__typename", J.str "A")]])] :
            List (String × J)).lookup "a").map removeGraphQLTypename
    ∧ J.isObjLike (J.str "s") = false ∧ removeGraphQLTypename (J.str "s") = J.str "s" :=
  ⟨claim_C10_remove_typename.1
      (J.obj [("__typename", J.str "T"),
              ("a", J.obj [("__typename", J.str "N"), ("b", J.num 1)]),
              ("c", J.arr [J.obj [("__typename", J.str "A")]])]),
   by decide,
   claim_C10_remove_typename.2.2.1
      [("__typename", J.str "T"),
       ("a", J.obj [("__typename", J.str "N"), ("b", J.num 1)]),
       ("c", J.arr [J.obj [("__typename", J.str "A")]])] "a" (by decide),
   rfl,
   claim_C10_remove_typename.2.2.2.2 (J.str "s") rfl⟩

end CopilotKitSpec
